import Mathlib

/-!
Verification of the medgfx binary container/codec layer (ZIP reader and
compressed-stream codec) against its specification.

The byte buffer backing a `DataView` is modelled as a `List Nat` of byte
values; all multi-byte reads are little-endian, matching `getUint16` /
`getUint32` / `getBigUint64` with `littleEndian = true`.  A read whose
range falls outside the buffer models the `RangeError` thrown by
`DataView` as a `truncation` failure.  The browser streaming primitives
(`DecompressionStream` / `CompressionStream`) are not part of the
repository, so they enter as oracle parameters (`Inflate` / `Deflate`);
everything the repository itself does — format detection, validation,
slicing, header parsing — is embedded directly from the source.
-/

namespace Medgfx

/-- Failure modes of the container/codec layer.  `truncation` models a
`DataView` rangeerror on an out-of-bounds read; the remaining
constructors model the distinct `throw new Error(...)` sites and the
`console.error` report for an unexpected signature. -/
inductive ZErr where
  | truncation : ZErr
  | zip64TooSmall : ZErr
  | zip64Missing : ZErr
  | unexpectedSignature (sig idx : Nat) : ZErr
  | entryTooLarge : ZErr
  | sizeMismatch : ZErr
  | unsupportedMethod : ZErr
  | emptyData : ZErr
  | dataLoss : ZErr
  | sizeLimit : ZErr
  | streamFailed : ZErr
  deriving DecidableEq, Repr

/-- Unchecked little-endian 8-bit peek (only used under a bounds check). -/
def peekU8 (buf : List Nat) (off : Nat) : Nat := buf.getD off 0

/-- Unchecked little-endian 16-bit peek. -/
def peekU16 (buf : List Nat) (off : Nat) : Nat :=
  peekU8 buf off + 256 * peekU8 buf (off + 1)

/-- Unchecked little-endian 32-bit peek. -/
def peekU32 (buf : List Nat) (off : Nat) : Nat :=
  peekU16 buf off + 65536 * peekU16 buf (off + 2)

/-- Unchecked little-endian 64-bit peek. -/
def peekU64 (buf : List Nat) (off : Nat) : Nat :=
  peekU32 buf off + 4294967296 * peekU32 buf (off + 4)

/-- Models `DataView.getUint8`: bounds-checked byte read. -/
def readU8 (buf : List Nat) (off : Nat) : Except ZErr Nat :=
  if off + 1 ≤ buf.length then .ok (peekU8 buf off) else .error .truncation

/-- Models `DataView.getUint16(off, true)`: bounds-checked little-endian read. -/
def readU16 (buf : List Nat) (off : Nat) : Except ZErr Nat :=
  if off + 2 ≤ buf.length then .ok (peekU16 buf off) else .error .truncation

/-- Models `DataView.getUint32(off, true)`: bounds-checked little-endian read. -/
def readU32 (buf : List Nat) (off : Nat) : Except ZErr Nat :=
  if off + 4 ≤ buf.length then .ok (peekU32 buf off) else .error .truncation

/-- Models `Number(DataView.getBigUint64(off, true))`: bounds-checked read. -/
def readU64 (buf : List Nat) (off : Nat) : Except ZErr Nat :=
  if off + 8 ≤ buf.length then .ok (peekU64 buf off) else .error .truncation

/-- Models `ZipReader.readString(offset, length)`: reads `length` consecutive
bytes via `getUint8`.  A zero-length read never touches the buffer and
always succeeds, exactly as the `Array.from({length: 0}, ...)` loop. -/
def readBytes (buf : List Nat) (off len : Nat) : Except ZErr (List Nat) :=
  if len = 0 then .ok []
  else if off + len ≤ buf.length then .ok ((buf.drop off).take len)
  else .error .truncation

/-- Maximum decompressed size for medical imaging files (2GB),
`MAX_DECOMPRESSED_SIZE = 2 * 1024 * 1024 * 1024`. -/
def MAX_DECOMPRESSED_SIZE : Nat := 2 * 1024 * 1024 * 1024

/-- Maximum individual ZIP entry size (500MB),
`MAX_INDIVIDUAL_ENTRY_SIZE = 500 * 1024 * 1024`. -/
def MAX_INDIVIDUAL_ENTRY_SIZE : Nat := 500 * 1024 * 1024

/-- One local-file record discovered by the reader (`ZipEntry`).
Strings read byte-by-byte by `readString` are kept as byte lists. -/
structure ZipEntry where
  signature : List Nat
  version : Nat
  generalPurpose : Nat
  compressionMethod : Nat
  lastModifiedTime : Nat
  lastModifiedDate : Nat
  crc : Nat
  compressedSize : Nat
  uncompressedSize : Nat
  fileNameLength : Nat
  extraLength : Nat
  fileName : List Nat
  extra : List Nat
  startsAt : Nat
  deriving DecidableEq, Repr

/-- The closed set of stream framings the source selects between, the
string labels `'gzip'`, `'deflate'` and `'deflate-raw'` passed to the
streaming primitives. -/
inductive CFormat where
  | gzip : CFormat
  | deflate : CFormat
  | deflateRaw : CFormat
  deriving DecidableEq, Repr

/-- Oracle for the browser `DecompressionStream`: given the format label
and the input bytes, it either produces the decompressed bytes or fails
(a rejected stream, whose exception propagates unchanged). -/
def Inflate : Type := CFormat → List Nat → Except ZErr (List Nat)

/-- Oracle for the browser `CompressionStream`. -/
def Deflate : Type := CFormat → List Nat → List Nat

/-- Models `ArrayBuffer.slice(startsAt, startsAt + compressedSize)`: clamped,
never throwing, exactly `drop`-then-`take` on the byte list. -/
def sliceOf (buf : List Nat) (startsAt compressedSize : Nat) : List Nat :=
  (buf.drop startsAt).take compressedSize

/-- Models `ZipReader.extract(entry)`.  Checks the per-entry ceiling first,
slices the payload, then dispatches on the compression method: stored
entries are length-checked and returned as-is; deflate entries are run
through the raw-deflate stream and length-checked; anything else is
unsupported. -/
def extract (inflate : Inflate) (buf : List Nat) (e : ZipEntry) :
    Except ZErr (List Nat) :=
  if e.uncompressedSize > MAX_INDIVIDUAL_ENTRY_SIZE then .error .entryTooLarge
  else
    if e.compressionMethod = 0 then
      if (sliceOf buf e.startsAt e.compressedSize).length ≠ e.uncompressedSize
        then .error .sizeMismatch
      else .ok (sliceOf buf e.startsAt e.compressedSize)
    else if e.compressionMethod = 8 then
      match inflate CFormat.deflateRaw (sliceOf buf e.startsAt e.compressedSize) with
      | .error s => .error s
      | .ok result =>
        if result.length ≠ e.uncompressedSize then .error .sizeMismatch
        else .ok result
    else .error .unsupportedMethod

/-- The magic-byte format detection inside `decompress`:
`data[0]===31 && data[1]===139 && data[2]===8 ? 'gzip' : data[0]===120 &&
(data[1]===1||data[1]===94||data[1]===156||data[1]===218) ? 'deflate' :
'deflate-raw'`.  An out-of-range JS index yields `undefined`, which
compares unequal to every byte value; `getD _ 0` models this because `0`
is none of the compared constants. -/
def detectFormat (data : List Nat) : CFormat :=
  if data.getD 0 0 = 31 ∧ data.getD 1 0 = 139 ∧ data.getD 2 0 = 8 then
    CFormat.gzip
  else if data.getD 0 0 = 120 ∧
      (data.getD 1 0 = 1 ∨ data.getD 1 0 = 94 ∨ data.getD 1 0 = 156 ∨
        data.getD 1 0 = 218) then CFormat.deflate
  else CFormat.deflateRaw

/-- Models `decompress(data)`.  `none` models `null`/`undefined` (the `!data`
guard); empty input fails; the detected format drives the stream oracle;
the output is rejected when empty (data loss) or above the 2 GiB global
ceiling, and returned whole otherwise. -/
def decompress (inflate : Inflate) (data : Option (List Nat)) :
    Except ZErr (List Nat) :=
  match data with
  | none => .error .emptyData
  | some d =>
    if d.length = 0 then .error .emptyData
    else
      match inflate (detectFormat d) d with
      | .error s => .error s
      | .ok result =>
        if result.length = 0 then .error .dataLoss
        else if result.length > MAX_DECOMPRESSED_SIZE then .error .sizeLimit
        else .ok result

/-- Models `compress(data, format)`: runs the input through the compression
stream for the requested format and returns the whole output, with no
size bound. -/
def compress (deflate : Deflate) (data : List Nat) (format : CFormat) :
    List Nat :=
  deflate format data

/-- The ZIP64 extra-field scan inside `readLocalFile`: walk the chain of
`(tag, length)` sub-records starting at `pos` while `pos < endPos - 4`
(the JS condition `zip64Offset < extraOffset + extraLength - 4`, written
over naturals as `pos + 4 < endPos`).  A tag `0x0001` record of length
`≥ 16` yields the 64-bit uncompressed size followed by the 64-bit
compressed size; a shorter one is an error; any other tag is skipped by
`4 + length`; falling off the region is the missing-ZIP64-field error. -/
def scanZip64 (buf : List Nat) (endPos pos : Nat) : Except ZErr (Nat × Nat) :=
  if pos + 4 < endPos then
    match readU16 buf pos, readU16 buf (pos + 2) with
    | .ok tag, .ok len =>
      if tag = 1 then
        if 16 ≤ len then
          match readU64 buf (pos + 4), readU64 buf (pos + 12) with
          | .ok u, .ok c => .ok (u, c)
          | .error e, _ => .error e
          | _, .error e => .error e
        else .error .zip64TooSmall
      else scanZip64 buf endPos (pos + 4 + len)
    | .error e, _ => .error e
    | _, .error e => .error e
  else .error .zip64Missing
  termination_by endPos - pos
  decreasing_by omega

/-- Absence of a tag `0x0001` sub-record along the extra-field chain
traversed by `scanZip64`: every record reachable from `pos` is readable
and has a tag other than `0x0001`. -/
def zip64Absent (buf : List Nat) (endPos pos : Nat) : Prop :=
  if pos + 4 < endPos then
    ∃ tag len, readU16 buf pos = .ok tag ∧ readU16 buf (pos + 2) = .ok len ∧
      tag ≠ 1 ∧ zip64Absent buf endPos (pos + 4 + len)
  else True
  termination_by endPos - pos
  decreasing_by omega

/-- The object-literal reads at the end of `readLocalFile`, in source
evaluation order, with the already-resolved sizes passed in. -/
def mkLocalEntry (buf : List Nat) (offset cs us nameLen extraLen : Nat) :
    Except ZErr ZipEntry := do
  let sigBytes ← readBytes buf offset 4
  let version ← readU16 buf (offset + 4)
  let generalPurpose ← readU16 buf (offset + 6)
  let compressionMethod ← readU16 buf (offset + 8)
  let lastModifiedTime ← readU16 buf (offset + 10)
  let lastModifiedDate ← readU16 buf (offset + 12)
  let crc ← readU32 buf (offset + 14)
  let fileName ← readBytes buf (offset + 30) nameLen
  let extra ← readBytes buf (offset + 30 + nameLen) extraLen
  pure { signature := sigBytes, version := version,
         generalPurpose := generalPurpose,
         compressionMethod := compressionMethod,
         lastModifiedTime := lastModifiedTime,
         lastModifiedDate := lastModifiedDate, crc := crc,
         compressedSize := cs, uncompressedSize := us,
         fileNameLength := nameLen, extraLength := extraLen,
         fileName := fileName, extra := extra, startsAt := 0 }

/-- Models `ZipReader.readLocalFile(offset)`: read the fixed size/length fields,
read the raw extra bytes, resolve ZIP64 placeholder sizes through the
extra-field scan when both sizes are `0xFFFFFFFF`, then build the entry
record. -/
def readLocalFile (buf : List Nat) (offset : Nat) : Except ZErr ZipEntry := do
  let cs0 ← readU32 buf (offset + 18)
  let us0 ← readU32 buf (offset + 22)
  let nameLen ← readU16 buf (offset + 26)
  let extraLen ← readU16 buf (offset + 28)
  let _extra ← readBytes buf (offset + 30 + nameLen) extraLen
  let sizes ←
    if cs0 = 4294967295 ∧ us0 = 4294967295 then do
      let uc ← scanZip64 buf (offset + 30 + nameLen + extraLen)
        (offset + 30 + nameLen)
      pure (uc.2, uc.1)
    else pure (cs0, us0)
  mkLocalEntry buf offset sizes.1 sizes.2 nameLen extraLen

/-- One parsed central-directory record (`CentralDirectoryEntry`). -/
structure CDEntry where
  versionCreated : Nat
  versionNeeded : Nat
  fileNameLength : Nat
  extraLength : Nat
  fileCommentLength : Nat
  diskNumber : Nat
  internalAttributes : Nat
  externalAttributes : Nat
  offset : Nat
  comments : List Nat
  deriving DecidableEq, Repr

/-- Models `ZipReader.readCentralDirectory(offset)`, field reads in source
evaluation order. -/
def readCentralDirectory (buf : List Nat) (offset : Nat) :
    Except ZErr CDEntry := do
  let versionCreated ← readU16 buf (offset + 4)
  let versionNeeded ← readU16 buf (offset + 6)
  let fileNameLength ← readU16 buf (offset + 28)
  let extraLength ← readU16 buf (offset + 30)
  let fileCommentLength ← readU16 buf (offset + 32)
  let diskNumber ← readU16 buf (offset + 34)
  let internalAttributes ← readU16 buf (offset + 36)
  let externalAttributes ← readU32 buf (offset + 38)
  let off ← readU32 buf (offset + 42)
  let commentLen ← readU16 buf (offset + 32)
  let comments ← readBytes buf (offset + 46) commentLen
  pure { versionCreated := versionCreated, versionNeeded := versionNeeded,
         fileNameLength := fileNameLength, extraLength := extraLength,
         fileCommentLength := fileCommentLength, diskNumber := diskNumber,
         internalAttributes := internalAttributes,
         externalAttributes := externalAttributes, offset := off,
         comments := comments }

/-- The end-of-central-directory record (`EndOfCentralDirectory`). -/
structure EOCD where
  numberOfDisks : Nat
  centralDirectoryStartDisk : Nat
  numberCentralDirectoryRecordsOnThisDisk : Nat
  numberCentralDirectoryRecords : Nat
  centralDirectorySize : Nat
  centralDirectoryOffset : Nat
  commentLength : Nat
  comment : List Nat
  deriving DecidableEq, Repr

/-- Models `ZipReader.readEndCentralDirectory(offset)`. -/
def readEndCentralDirectory (buf : List Nat) (offset : Nat) :
    Except ZErr EOCD := do
  let commentLength ← readU16 buf (offset + 20)
  let numberOfDisks ← readU16 buf (offset + 4)
  let startDisk ← readU16 buf (offset + 6)
  let recsThisDisk ← readU16 buf (offset + 8)
  let recs ← readU16 buf (offset + 10)
  let cdSize ← readU32 buf (offset + 12)
  let cdOffset ← readU32 buf (offset + 16)
  let comment ← readBytes buf (offset + 22) commentLength
  pure { numberOfDisks := numberOfDisks,
         centralDirectoryStartDisk := startDisk,
         numberCentralDirectoryRecordsOnThisDisk := recsThisDisk,
         numberCentralDirectoryRecords := recs,
         centralDirectorySize := cdSize, centralDirectoryOffset := cdOffset,
         commentLength := commentLength, comment := comment }

/-- Models `ZipReader.readEndCentralDirectory64(offset)`: note the source reads
the "comment length" as a 64-bit value at `offset + 0` (the signature
position) — embedded faithfully. -/
def readEndCentralDirectory64 (buf : List Nat) (offset : Nat) :
    Except ZErr EOCD := do
  let commentLength ← readU64 buf offset
  let numberOfDisks ← readU32 buf (offset + 16)
  let startDisk ← readU32 buf (offset + 20)
  let recsThisDisk ← readU64 buf (offset + 24)
  let recs ← readU64 buf (offset + 32)
  let cdSize ← readU64 buf (offset + 40)
  let cdOffset ← readU64 buf (offset + 48)
  pure { numberOfDisks := numberOfDisks,
         centralDirectoryStartDisk := startDisk,
         numberCentralDirectoryRecordsOnThisDisk := recsThisDisk,
         numberCentralDirectoryRecords := recs,
         centralDirectorySize := cdSize, centralDirectoryOffset := cdOffset,
         commentLength := commentLength, comment := [] }

/-- The data-descriptor search loop: from `scanIndex`, while at least 20
bytes remain, look for signature `0x08074b50` whose 16-bytes-later
position holds the `"PK"` prefix `0x4b50`; on a confirmed match stop at
`scanIndex + 4`, otherwise advance one byte.  When the loop exits
without a match the final `scanIndex` is returned unchanged (the source
then reads the descriptor fields there).  All peeks inside the loop are
within bounds by the loop condition.  Structured with explicit fuel; one
byte of fuel per scanned position makes `buf.length + 1` always
sufficient. -/
def ddScanGo (buf : List Nat) : Nat → Nat → Nat
  | 0, scanIndex => scanIndex
  | fuel + 1, scanIndex =>
    if scanIndex + 20 ≤ buf.length then
      if peekU32 buf scanIndex = 0x08074b50 ∧
          peekU16 buf (scanIndex + 16) = 0x4b50 then scanIndex + 4
      else ddScanGo buf fuel (scanIndex + 1)
    else scanIndex

/-- The data-descriptor search with its always-sufficient fuel. -/
def ddScan (buf : List Nat) (scanIndex : Nat) : Nat :=
  ddScanGo buf (buf.length + 1) scanIndex

/-- The mutable state of `ZipReader.read()`: cursor, collected records,
the optional end record, and the `console.error` log. -/
structure ScanState where
  index : Nat
  localFiles : List ZipEntry
  centralDirectories : List CDEntry
  endOfCentralDirectory : Option EOCD
  errLog : List ZErr
  deriving DecidableEq, Repr

/-- One-signature-at-a-time embedding of the `while` loop in
`ZipReader.read()`.  Each iteration consumes at least one byte of fuel;
the cursor advances by at least 12 per iteration, so fuel
`buf.length + 1` can never run out before the loop condition fails. -/
def readRecords (buf : List Nat) : Nat → ScanState → Except ZErr ScanState
  | 0, st => .ok st
  | fuel + 1, st =>
    if st.endOfCentralDirectory = none ∧ st.index < buf.length then do
      let signature ← readU32 buf st.index
      if signature = 0x04034b50 then do
        let e0 ← readLocalFile buf st.index
        let hasDataDescriptor := Nat.land e0.generalPurpose 8 ≠ 0
        let startsAt := st.index + 30 + e0.fileNameLength + e0.extraLength
        let e1 := { e0 with startsAt := startsAt }
        if e1.compressedSize = 0 ∧ hasDataDescriptor then do
          let scanIndex := ddScan buf startsAt
          let crc ← readU32 buf scanIndex
          let cs ← readU32 buf (scanIndex + 4)
          let us ← readU32 buf (scanIndex + 8)
          let e2 := { e1 with crc := crc, compressedSize := cs,
                              uncompressedSize := us }
          readRecords buf fuel
            { st with index := scanIndex + 12,
                      localFiles := st.localFiles ++ [e2] }
        else
          readRecords buf fuel
            { st with index := startsAt + e1.compressedSize,
                      localFiles := st.localFiles ++ [e1] }
      else if signature = 0x02014b50 then do
        let c ← readCentralDirectory buf st.index
        readRecords buf fuel
          { st with
              index := st.index + 46 + c.fileNameLength + c.extraLength +
                c.fileCommentLength,
              centralDirectories := st.centralDirectories ++ [c] }
      else if signature = 0x06054b50 then do
        let eo ← readEndCentralDirectory buf st.index
        .ok { st with endOfCentralDirectory := some eo }
      else if signature = 0x06064b50 then do
        let eo ← readEndCentralDirectory64 buf st.index
        .ok { st with endOfCentralDirectory := some eo }
      else
        .ok { st with
                errLog := st.errLog ++ [.unexpectedSignature signature st.index] }
    else .ok st

/-- The full scan run by the `ZipReader` constructor. -/
def zipRead (buf : List Nat) : Except ZErr ScanState :=
  readRecords buf (buf.length + 1)
    { index := 0, localFiles := [], centralDirectories := [],
      endOfCentralDirectory := none, errLog := [] }

theorem okBind {α β : Type} (a : α) (f : α → Except ZErr β) :
    (Except.ok a >>= f) = f a := rfl

theorem errBind {α β : Type} (e : ZErr) (f : α → Except ZErr β) :
    (Except.error e >>= f : Except ZErr β) = Except.error e := rfl

theorem purEq {α : Type} (a : α) : (pure a : Except ZErr α) = Except.ok a := rfl

attribute [simp] okBind errBind purEq

/-! Concrete fixtures used to instantiate the theorems below. -/

/-- A stream oracle that decompresses everything to the empty buffer. -/
def inflZero : Inflate := fun _ _ => .ok []

/-- A stream oracle that decompresses everything to one byte `7`. -/
def inflSeven : Inflate := fun _ _ => .ok [7]

/-- A stored entry declaring sizes one byte above the 500 MiB per-entry
ceiling. -/
def bigEntry : ZipEntry :=
  { signature := [80, 75, 3, 4], version := 20, generalPurpose := 0,
    compressionMethod := 0, lastModifiedTime := 0, lastModifiedDate := 0,
    crc := 0, compressedSize := 524288001, uncompressedSize := 524288001,
    fileNameLength := 0, extraLength := 0, fileName := [], extra := [],
    startsAt := 0 }

/-- A backing buffer of exactly `bigEntry.compressedSize` zero bytes, so
the stored slice length matches the declared uncompressed size. -/
def bigBuf : List Nat := List.replicate 524288001 0

/-- A deflate entry declaring zero compressed and uncompressed bytes. -/
def rawEntry : ZipEntry :=
  { signature := [80, 75, 3, 4], version := 20, generalPurpose := 0,
    compressionMethod := 8, lastModifiedTime := 0, lastModifiedDate := 0,
    crc := 0, compressedSize := 0, uncompressedSize := 0,
    fileNameLength := 0, extraLength := 0, fileName := [], extra := [],
    startsAt := 0 }

/-- Claim C3: an entry whose declared `uncompressedSize` exceeds the
500 MiB per-entry ceiling makes `extract` fail with the safety-limit
error before any payload bytes are touched: the result is the same error
for every backing buffer and every stream oracle, so no slice is taken
and no decompression is attempted. -/
theorem extract_rejects_oversized_entry (inflate : Inflate) (e : ZipEntry)
    (buf : List Nat) (h : e.uncompressedSize > 500 * 1024 * 1024) :
    extract inflate buf e = .error .entryTooLarge := by
  simp only [extract, MAX_INDIVIDUAL_ENTRY_SIZE]
  rw [if_pos h]

theorem extract_rejects_oversized_entry_witness :
    extract inflZero [] bigEntry = .error .entryTooLarge :=
  extract_rejects_oversized_entry inflZero bigEntry [] (by decide)

/-- Claim C2: `decompress` fails with the empty-data error on `null` /
`undefined` and on a zero-length buffer; for non-empty input whose
stream oracle yields `out`, it fails with the data-loss error when `out`
is empty, fails with the size-limit error when `out` exceeds the 2 GiB
global ceiling, and otherwise returns exactly the complete buffer
`out` — never a partial or unvalidated one. -/
theorem decompress_validation (inflate : Inflate) :
    decompress inflate none = .error .emptyData ∧
    decompress inflate (some []) = .error .emptyData ∧
    ∀ d out, d ≠ [] → inflate (detectFormat d) d = .ok out →
      (out.length = 0 → decompress inflate (some d) = .error .dataLoss) ∧
      (out.length ≠ 0 → out.length > 2 * 1024 * 1024 * 1024 →
        decompress inflate (some d) = .error .sizeLimit) ∧
      (out.length ≠ 0 → out.length ≤ 2 * 1024 * 1024 * 1024 →
        decompress inflate (some d) = .ok out) := by
  refine ⟨rfl, rfl, fun d out hd hout => ?_⟩
  have hlen : ¬ d.length = 0 := by simpa using hd
  refine ⟨fun h0 => ?_, fun h0 hbig => ?_, fun h0 hsmall => ?_⟩
  · simp [decompress, hlen, hout, h0]
  · simp [decompress, hlen, hout, h0, MAX_DECOMPRESSED_SIZE, hbig]
  · simp [decompress, hlen, hout, h0, MAX_DECOMPRESSED_SIZE]
    omega

theorem decompress_validation_witness :
    decompress inflSeven none = .error .emptyData ∧
    decompress inflSeven (some [5]) = .ok [7] :=
  ⟨(decompress_validation inflSeven).1,
    ((decompress_validation inflSeven).2.2 [5] [7] (by decide) rfl).2.2
      (by decide) (by decide)⟩

/-- Claim C10: for a deflate entry (method 8) within the per-entry
ceiling, `extract` always feeds the payload slice to the raw-deflate
stream — the result depends only on the oracle's `deflateRaw` behaviour
on that slice, with no magic-byte autodetection — and validates the
output only against the declared `uncompressedSize`: neither the
empty-output data-loss check nor the 2 GiB global ceiling of
`decompress` applies, so a deflate entry declaring zero bytes whose
payload inflates to zero bytes succeeds with an empty buffer. -/
theorem extract_deflate_raw_framing (inflate : Inflate) (e : ZipEntry)
    (buf : List Nat) (hm : e.compressionMethod = 8)
    (hsz : e.uncompressedSize ≤ MAX_INDIVIDUAL_ENTRY_SIZE) :
    (∀ out,
      inflate CFormat.deflateRaw (sliceOf buf e.startsAt e.compressedSize) =
        .ok out →
      extract inflate buf e =
        if out.length = e.uncompressedSize then .ok out
        else .error .sizeMismatch) ∧
    (∀ inflate2 : Inflate,
      inflate2 CFormat.deflateRaw (sliceOf buf e.startsAt e.compressedSize) =
        inflate CFormat.deflateRaw (sliceOf buf e.startsAt e.compressedSize) →
      extract inflate2 buf e = extract inflate buf e) ∧
    (e.uncompressedSize = 0 →
      inflate CFormat.deflateRaw (sliceOf buf e.startsAt e.compressedSize) =
        .ok [] →
      extract inflate buf e = .ok []) := by
  have hnot : ¬ e.uncompressedSize > MAX_INDIVIDUAL_ENTRY_SIZE := by omega
  refine ⟨fun out hout => ?_, fun inflate2 heq => ?_, fun h0 hout => ?_⟩
  · simp only [extract, hnot, if_false, hm]
    norm_num [hout]
  · simp only [extract, hnot, if_false, hm]
    norm_num [heq]
  · simp only [extract, hnot, if_false, hm]
    norm_num [hout, h0]

theorem extract_deflate_raw_framing_witness :
    extract inflZero [] rawEntry = .ok [] :=
  (extract_deflate_raw_framing inflZero rawEntry [] rfl (by decide)).2.2
    rfl rfl

/-- Claim C8: for every non-empty input, the format is selected purely
from the leading bytes: gzip exactly when the first three bytes are
`1F 8B 08`; zlib-framed deflate exactly when the first byte is `0x78`
and the second is one of `01/5E/9C/DA`; raw deflate in every other
case. -/
theorem detect_format_by_magic (data : List Nat) (h : data ≠ []) :
    (detectFormat data = CFormat.gzip ↔
      ∃ rest, data = 31 :: 139 :: 8 :: rest) ∧
    (detectFormat data = CFormat.deflate ↔
      ∃ b rest, data = 120 :: b :: rest ∧
        (b = 1 ∨ b = 94 ∨ b = 156 ∨ b = 218)) ∧
    (detectFormat data = CFormat.deflateRaw ↔
      (¬ ∃ rest, data = 31 :: 139 :: 8 :: rest) ∧
      ¬ ∃ b rest, data = 120 :: b :: rest ∧
        (b = 1 ∨ b = 94 ∨ b = 156 ∨ b = 218)) := by
  rcases data with _ | ⟨a, _ | ⟨b, _ | ⟨c, rest⟩⟩⟩
  · exact absurd rfl h
  · refine ⟨?_, ?_, ?_⟩ <;>
      (simp only [detectFormat]; split_ifs <;> simp_all)
  · refine ⟨?_, ?_, ?_⟩ <;>
      (simp only [detectFormat]; split_ifs <;> simp_all)
  · refine ⟨?_, ?_, ?_⟩ <;>
      (simp only [detectFormat]; split_ifs <;> simp_all)

theorem detect_format_by_magic_witness :
    detectFormat [31, 139, 8] = CFormat.gzip ∧
    detectFormat [120, 156] = CFormat.deflate :=
  ⟨(detect_format_by_magic [31, 139, 8] (by decide)).1.mpr ⟨[], rfl⟩,
    (detect_format_by_magic [120, 156] (by decide)).2.1.mpr
      ⟨156, [], rfl, by tauto⟩⟩

/-- Claim C7: when the buffer holds fewer bytes past the cursor than the
30-byte fixed local-file header requires (in particular any buffer
shorter than 20 bytes handed to the local-file parser at offset 0), the
parse fails with the truncation error; every read in the model is
bounds-checked, so no byte past the end of the buffer is ever
consulted. -/
theorem readLocalFile_truncated (buf : List Nat) (off : Nat)
    (h : buf.length < off + 30) :
    readLocalFile buf off = .error .truncation := by
  simp only [readLocalFile, readU32, readU16]
  split_ifs <;> simp_all
  omega

theorem readLocalFile_truncated_witness :
    readLocalFile [80, 75, 3, 4, 20, 0, 0, 0] 0 = .error .truncation :=
  readLocalFile_truncated [80, 75, 3, 4, 20, 0, 0, 0] 0 (by decide)

/-- A complete little archive: one stored local-file entry named
`a.txt` (bytes `97 46 116 120 116`) with the two payload bytes `hi`
(`104 105`), followed by an end-of-central-directory record. -/
def hiBuf : List Nat :=
  [80, 75, 3, 4, 20, 0, 0, 0, 0, 0, 0, 0, 0, 0, 0, 0, 0, 0,
   2, 0, 0, 0, 2, 0, 0, 0, 5, 0, 0, 0,
   97, 46, 116, 120, 116, 104, 105,
   80, 75, 5, 6, 0, 0, 0, 0, 1, 0, 1, 0, 0, 0, 0, 0, 0, 0, 0, 0, 0, 0]

/-- The entry the reader discovers in `hiBuf`. -/
def hiEntry : ZipEntry :=
  { signature := [80, 75, 3, 4], version := 20, generalPurpose := 0,
    compressionMethod := 0, lastModifiedTime := 0, lastModifiedDate := 0,
    crc := 0, compressedSize := 2, uncompressedSize := 2,
    fileNameLength := 5, extraLength := 0,
    fileName := [97, 46, 116, 120, 116], extra := [], startsAt := 35 }

/-- The final scan state for `hiBuf`. -/
def hiState : ScanState :=
  { index := 37, localFiles := [hiEntry], centralDirectories := [],
    endOfCentralDirectory := some
      { numberOfDisks := 0, centralDirectoryStartDisk := 0,
        numberCentralDirectoryRecordsOnThisDisk := 1,
        numberCentralDirectoryRecords := 1, centralDirectorySize := 0,
        centralDirectoryOffset := 0, commentLength := 0, comment := [] },
    errLog := [] }

/-- Claim C1 fails as stated: for a stored entry declaring sizes above
the 500 MiB per-entry ceiling whose backing slice nevertheless has
exactly the declared length, `extract` does not return the slice — it
fails with the safety-limit error, not a size-mismatch error. -/
theorem stored_extract_counterexample :
    bigEntry.compressionMethod = 0 ∧
    (sliceOf bigBuf bigEntry.startsAt bigEntry.compressedSize).length =
      bigEntry.uncompressedSize ∧
    extract inflZero bigBuf bigEntry ≠
      .ok (sliceOf bigBuf bigEntry.startsAt bigEntry.compressedSize) ∧
    extract inflZero bigBuf bigEntry = .error .entryTooLarge := by
  have hx : extract inflZero bigBuf bigEntry = .error .entryTooLarge := by
    simp only [extract]
    rw [if_pos (by norm_num [bigEntry, MAX_INDIVIDUAL_ENTRY_SIZE])]
  have hb : bigBuf.length = 524288001 := by
    unfold bigBuf
    rw [List.length_replicate]
  refine ⟨rfl, ?_, ?_, hx⟩
  · show ((bigBuf.drop 0).take 524288001).length = 524288001
    rw [List.drop_zero, List.length_take, hb, Nat.min_self]
  · rw [hx]; exact fun hcon => Except.noConfusion hcon

/-- Claim C1 (amended: restricted to entries within the 500 MiB
per-entry ceiling, which `extract` checks first): for every stored
entry, if the backing-buffer slice `[startsAt, startsAt +
compressedSize)` has length exactly `uncompressedSize` then `extract`
returns exactly that slice, and otherwise it fails with the
size-mismatch error; and the concrete `hiBuf` archive parses to a
single entry named `a.txt` whose extraction returns the two payload
bytes of `hi`. -/
theorem stored_extract_exact :
    (∀ (inflate : Inflate) (e : ZipEntry) (buf : List Nat),
      e.compressionMethod = 0 →
      e.uncompressedSize ≤ MAX_INDIVIDUAL_ENTRY_SIZE →
      ((sliceOf buf e.startsAt e.compressedSize).length =
          e.uncompressedSize →
        extract inflate buf e =
          .ok (sliceOf buf e.startsAt e.compressedSize)) ∧
      ((sliceOf buf e.startsAt e.compressedSize).length ≠
          e.uncompressedSize →
        extract inflate buf e = .error .sizeMismatch)) ∧
    zipRead hiBuf = .ok hiState ∧ hiState.localFiles = [hiEntry] ∧
    hiEntry.fileName = [97, 46, 116, 120, 116] ∧
    extract inflZero hiBuf hiEntry = .ok [104, 105] := by
  refine ⟨fun inflate e buf hm hsz => ?_, by rfl, rfl, rfl, by rfl⟩
  have hnot : ¬ e.uncompressedSize > MAX_INDIVIDUAL_ENTRY_SIZE := by omega
  constructor
  · intro hlen
    simp [extract, hnot, hm, hlen]
  · intro hlen
    simp [extract, hnot, hm, hlen]

theorem stored_extract_exact_witness :
    extract inflZero hiBuf hiEntry = .ok (sliceOf hiBuf 35 2) ∧
    sliceOf hiBuf 35 2 = [104, 105] :=
  ⟨(stored_extract_exact.1 inflZero hiEntry hiBuf rfl (by decide)).1
      (by decide), by decide⟩

/-- Claim C4: while no end record has been seen and bytes remain, a
32-bit signature at the cursor that is none of the four known record
signatures makes the scan stop at once with the format error recorded:
the state keeps its cursor (nothing is skipped), no further record is
parsed no matter how much fuel remains (no resynchronisation), and the
unexpected-signature report carries the offending signature and
offset. -/
theorem read_halts_on_unknown_signature (buf : List Nat) (fuel : Nat)
    (st : ScanState) (sig : Nat)
    (h0 : st.endOfCentralDirectory = none) (h1 : st.index < buf.length)
    (h2 : readU32 buf st.index = .ok sig)
    (h3 : sig ≠ 0x04034b50) (h4 : sig ≠ 0x02014b50)
    (h5 : sig ≠ 0x06054b50) (h6 : sig ≠ 0x06064b50) :
    readRecords buf (fuel + 1) st =
      .ok { st with
              errLog := st.errLog ++ [.unexpectedSignature sig st.index] } := by
  simp only [readRecords]
  rw [if_pos ⟨h0, h1⟩, h2]
  simp only [okBind]
  rw [if_neg h3, if_neg h4, if_neg h5, if_neg h6]

theorem read_halts_on_unknown_signature_witness :
    readRecords [1, 2, 3, 4] 1
        { index := 0, localFiles := [], centralDirectories := [],
          endOfCentralDirectory := none, errLog := [] } =
      .ok { index := 0, localFiles := [], centralDirectories := [],
            endOfCentralDirectory := none,
            errLog := [.unexpectedSignature 67305985 0] } := by
  have h := read_halts_on_unknown_signature [1, 2, 3, 4] 0
    { index := 0, localFiles := [], centralDirectories := [],
      endOfCentralDirectory := none, errLog := [] }
    67305985 rfl (by decide) (by rfl) (by decide) (by decide) (by decide)
    (by decide)
  simpa using h

/-- A local-file header with the deferred-size flag (general-purpose bit
3) set and `compressedSize = 0`, followed by 12 payload bytes containing
no data-descriptor signature at all.  The descriptor scan needs 20 bytes
of look-ahead, so it exits immediately without a confirmed match. -/
def ddBadBuf : List Nat :=
  [80, 75, 3, 4, 20, 0, 8, 0, 8, 0, 0, 0, 0, 0, 0, 0, 0, 0,
   0, 0, 0, 0, 0, 0, 0, 0, 0, 0, 0, 0,
   0, 0, 0, 0, 0, 0, 0, 0, 0, 0, 0, 0]

/-- The entry the reader produces for `ddBadBuf`, its crc and sizes
taken from offset 30 — the position where the descriptor scan gave up,
never confirmed as a data descriptor. -/
def ddBadEntry : ZipEntry :=
  { signature := [80, 75, 3, 4], version := 20, generalPurpose := 8,
    compressionMethod := 8, lastModifiedTime := 0, lastModifiedDate := 0,
    crc := 0, compressedSize := 0, uncompressedSize := 0,
    fileNameLength := 0, extraLength := 0, fileName := [], extra := [],
    startsAt := 30 }

/-- Claim C5 names a truncation failure the code does not perform: on
`ddBadBuf` the byte-by-byte descriptor search runs off the end of the
buffer without a confirmed match (`ddScan` returns its starting offset
30 unchanged), yet the parse does not fail — it silently reads
crc32/compressedSize/uncompressedSize from that unconfirmed offset and
returns a successful state with no error of any kind. -/
theorem dd_scan_reads_unconfirmed_offset :
    ddScan ddBadBuf 30 = 30 ∧
    zipRead ddBadBuf = .ok
      { index := 42, localFiles := [ddBadEntry], centralDirectories := [],
        endOfCentralDirectory := none, errLog := [] } :=
  ⟨rfl, rfl⟩

/-- A concrete compression oracle satisfying the platform contract
hypotheses of the round-trip theorem: it marks its output with the
correct envelope magic for the requested framing. -/
def deflateT : Deflate := fun fmt x =>
  match fmt with
  | CFormat.deflate => 120 :: 156 :: x
  | _ => 31 :: 139 :: 8 :: x

/-- The matching decompression oracle: strips the envelope added by
`deflateT`. -/
def inflateT : Inflate := fun fmt y =>
  match fmt with
  | CFormat.deflate => .ok (y.drop 2)
  | _ => .ok (y.drop 3)

/-- Claim C9 fails as stated: even for a platform codec that is a
perfect inverse pair and emits the gzip magic, the round-trip is not the
identity on every buffer — for the empty buffer the decompressed output
has zero bytes, which `decompress` unconditionally rejects as data
loss. -/
theorem roundtrip_counterexample :
    ¬ (∀ (inflate : Inflate) (deflate : Deflate),
        (∀ x, inflate CFormat.gzip (deflate CFormat.gzip x) = .ok x) →
        (∀ x, ∃ rest, deflate CFormat.gzip x = 31 :: 139 :: 8 :: rest) →
        ∀ x : List Nat,
          decompress inflate (some (compress deflate x CFormat.gzip)) =
            .ok x) := by
  intro h
  have hx := h inflateT deflateT (fun x => rfl) (fun x => ⟨x, rfl⟩) []
  have hval : decompress inflateT (some (compress deflateT [] CFormat.gzip)) =
      .error .dataLoss := rfl
  rw [hval] at hx
  exact Except.noConfusion hx

/-- Claim C9 (amended: restricted to non-empty buffers of at most the
2 GiB global ceiling — the validations `decompress` applies to every
output): assuming the platform streaming codec is a correct inverse
pair whose gzip output starts with the gzip magic `1F 8B 08` and whose
zlib output starts with `78` followed by one of `01/5E/9C/DA`,
decompressing the output of `compress` under the same framing (gzip or
zlib deflate) returns exactly the original bytes. -/
theorem compress_roundtrip (inflate : Inflate) (deflate : Deflate)
    (hgi : ∀ x, inflate CFormat.gzip (deflate CFormat.gzip x) = .ok x)
    (hgm : ∀ x, ∃ rest, deflate CFormat.gzip x = 31 :: 139 :: 8 :: rest)
    (hzi : ∀ x, inflate CFormat.deflate (deflate CFormat.deflate x) = .ok x)
    (hzm : ∀ x, ∃ b rest, deflate CFormat.deflate x = 120 :: b :: rest ∧
      (b = 1 ∨ b = 94 ∨ b = 156 ∨ b = 218)) :
    ∀ x : List Nat, x ≠ [] → x.length ≤ 2 * 1024 * 1024 * 1024 →
      decompress inflate (some (compress deflate x CFormat.gzip)) = .ok x ∧
      decompress inflate (some (compress deflate x CFormat.deflate)) =
        .ok x := by
  intro x hx hlen
  have hxlen : ¬ x.length = 0 := by simpa using hx
  have hxbig : ¬ x.length > MAX_DECOMPRESSED_SIZE := by
    simp only [MAX_DECOMPRESSED_SIZE]
    omega
  constructor
  · obtain ⟨rest, hc⟩ := hgm x
    have hdet : detectFormat (deflate CFormat.gzip x) = CFormat.gzip := by
      rw [hc]
      simp [detectFormat]
    have hne : ¬ (deflate CFormat.gzip x).length = 0 := by
      rw [hc]
      simp
    simp only [decompress, compress]
    rw [if_neg hne, hdet, hgi x]
    simp [hxlen, hxbig]
  · obtain ⟨b, rest, hc, hb⟩ := hzm x
    have hdet : detectFormat (deflate CFormat.deflate x) = CFormat.deflate := by
      rcases hb with hb | hb | hb | hb <;> rw [hc, hb] <;> simp [detectFormat]
    have hne : ¬ (deflate CFormat.deflate x).length = 0 := by
      rw [hc]
      simp
    simp only [decompress, compress]
    rw [if_neg hne, hdet, hzi x]
    simp [hxlen, hxbig]

theorem bindOkIff {α β : Type} (x : Except ZErr α) (f : α → Except ZErr β)
    (b : β) : (x >>= f) = .ok b ↔ ∃ a, x = .ok a ∧ f a = .ok b := by
  cases x <;> simp

theorem mkLocalEntry_sizes (buf : List Nat) (off cs us nl el : Nat)
    (e : ZipEntry) (h : mkLocalEntry buf off cs us nl el = .ok e) :
    e.compressedSize = cs ∧ e.uncompressedSize = us := by
  simp only [mkLocalEntry, bindOkIff, purEq, Except.ok.injEq] at h
  obtain ⟨a1, -, a2, -, a3, -, a4, -, a5, -, a6, -, a7, -, a8, -, a9, -,
    hrec⟩ := h
  subst hrec
  exact ⟨rfl, rfl⟩

theorem zip64Absent_scan : ∀ (n : Nat) (buf : List Nat) (endP pos : Nat),
    endP - pos ≤ n → zip64Absent buf endP pos →
    scanZip64 buf endP pos = .error .zip64Missing := by
  intro n
  induction n with
  | zero =>
    intro buf endP pos hle habs
    rw [scanZip64, if_neg (by omega)]
  | succ n ih =>
    intro buf endP pos hle habs
    by_cases hcond : pos + 4 < endP
    · rw [zip64Absent, if_pos hcond] at habs
      obtain ⟨tag, len, ht, hl, hne, habs2⟩ := habs
      rw [scanZip64, if_pos hcond, ht, hl]
      simp only [hne, if_false]
      exact ih buf endP (pos + 4 + len) (by omega) habs2
    · rw [scanZip64, if_neg hcond]

theorem readLocalFile_scan_eq (buf : List Nat) (off nameLen extraLen u c : Nat)
    (h18 : readU32 buf (off + 18) = .ok 4294967295)
    (h22 : readU32 buf (off + 22) = .ok 4294967295)
    (h26 : readU16 buf (off + 26) = .ok nameLen)
    (h28 : readU16 buf (off + 28) = .ok extraLen)
    (hscan : scanZip64 buf (off + 30 + nameLen + extraLen)
      (off + 30 + nameLen) = .ok (u, c)) :
    readLocalFile buf off =
      readBytes buf (off + 30 + nameLen) extraLen >>= fun _ =>
        mkLocalEntry buf off c u nameLen extraLen := by
  simp only [readLocalFile, h18, h22, h26, h28, okBind]
  rcases hrb : readBytes buf (off + 30 + nameLen) extraLen with e0 | bs <;>
    simp only [okBind, errBind]
  rw [if_pos ⟨trivial, trivial⟩, hscan]
  simp only [okBind, purEq]

/-- Claim C6: when both fixed sizes hold the ZIP64 placeholder
`0xFFFFFFFF`, the parser resolves them through the extra-field chain:
the scan skips every sub-record whose tag is not `0x0001`; a tag
`0x0001` record with declared length at least 16 yields the 64-bit
uncompressed size read first and the 64-bit compressed size read from
the following eight bytes, and any entry the parse then produces
carries exactly those sizes; when no tag `0x0001` record exists along
the chain the parse fails with the missing-ZIP64-field error. -/
theorem zip64_placeholder_resolution (buf : List Nat)
    (off nameLen extraLen : Nat)
    (h18 : readU32 buf (off + 18) = .ok 4294967295)
    (h22 : readU32 buf (off + 22) = .ok 4294967295)
    (h26 : readU16 buf (off + 26) = .ok nameLen)
    (h28 : readU16 buf (off + 28) = .ok extraLen) :
    ((∃ bs, readBytes buf (off + 30 + nameLen) extraLen = .ok bs) →
      zip64Absent buf (off + 30 + nameLen + extraLen) (off + 30 + nameLen) →
      readLocalFile buf off = .error .zip64Missing) ∧
    (∀ u c e,
      scanZip64 buf (off + 30 + nameLen + extraLen) (off + 30 + nameLen) =
        .ok (u, c) →
      readLocalFile buf off = .ok e →
      e.uncompressedSize = u ∧ e.compressedSize = c) ∧
    (∀ endP pos len u c, pos + 4 < endP → readU16 buf pos = .ok 1 →
      readU16 buf (pos + 2) = .ok len → 16 ≤ len →
      readU64 buf (pos + 4) = .ok u → readU64 buf (pos + 12) = .ok c →
      scanZip64 buf endP pos = .ok (u, c)) ∧
    (∀ endP pos tag len, pos + 4 < endP → readU16 buf pos = .ok tag →
      readU16 buf (pos + 2) = .ok len → tag ≠ 1 →
      scanZip64 buf endP pos = scanZip64 buf endP (pos + 4 + len)) := by
  refine ⟨?_, ?_, ?_, ?_⟩
  · rintro ⟨bs, hrb⟩ habs
    have hs := zip64Absent_scan (off + 30 + nameLen + extraLen) buf
      (off + 30 + nameLen + extraLen) (off + 30 + nameLen) (by omega) habs
    simp only [readLocalFile, h18, h22, h26, h28, okBind, hrb]
    rw [if_pos ⟨trivial, trivial⟩, hs]
    rfl
  · intro u c e hscan hread
    rw [readLocalFile_scan_eq buf off nameLen extraLen u c h18 h22 h26 h28
      hscan] at hread
    rcases hrb : readBytes buf (off + 30 + nameLen) extraLen with e0 | bs <;>
      rw [hrb] at hread <;> simp only [okBind, errBind] at hread
    · exact absurd hread (fun hcon => Except.noConfusion hcon)
    · have hmk := mkLocalEntry_sizes buf off c u nameLen extraLen e hread
      exact ⟨hmk.2, hmk.1⟩
  · intro endP pos len u c h ht hl h16 hu hc
    rw [scanZip64, if_pos h, ht, hl]
    simp [h16, hu, hc]
  · intro endP pos tag len h ht hl hne
    rw [scanZip64, if_pos h, ht, hl]
    simp [hne]

/-- A local-file header declaring both placeholder sizes, no file name
and a 20-byte extra field holding one ZIP64 record: tag `0x0001`,
length 16, 64-bit uncompressed size 2, 64-bit compressed size 3. -/
def buf64w : List Nat :=
  [80, 75, 3, 4, 20, 0, 0, 0, 0, 0, 0, 0, 0, 0, 0, 0, 0, 0,
   255, 255, 255, 255, 255, 255, 255, 255, 0, 0, 20, 0,
   1, 0, 16, 0, 2, 0, 0, 0, 0, 0, 0, 0, 3, 0, 0, 0, 0, 0, 0, 0]

/-- The entry parsed from `buf64w`, its sizes taken from the ZIP64
extra-field record. -/
def e64 : ZipEntry :=
  { signature := [80, 75, 3, 4], version := 20, generalPurpose := 0,
    compressionMethod := 0, lastModifiedTime := 0, lastModifiedDate := 0,
    crc := 0, compressedSize := 3, uncompressedSize := 2,
    fileNameLength := 0, extraLength := 20, fileName := [],
    extra := [1, 0, 16, 0, 2, 0, 0, 0, 0, 0, 0, 0, 3, 0, 0, 0, 0, 0, 0, 0],
    startsAt := 0 }

theorem zip64_placeholder_resolution_witness :
    readLocalFile buf64w 0 = .ok e64 ∧
    e64.uncompressedSize = 2 ∧ e64.compressedSize = 3 := by
  have h := zip64_placeholder_resolution buf64w 0 0 20 (by rfl) (by rfl)
    (by rfl) (by rfl)
  have hscan : scanZip64 buf64w (0 + 30 + 0 + 20) (0 + 30 + 0) = .ok (2, 3) :=
    h.2.2.1 (0 + 30 + 0 + 20) (0 + 30 + 0) 16 2 3 (by norm_num) (by rfl)
      (by rfl) (by norm_num) (by rfl) (by rfl)
  have hread : readLocalFile buf64w 0 = .ok e64 := by
    rw [readLocalFile_scan_eq buf64w 0 0 20 2 3 (by rfl) (by rfl) (by rfl)
      (by rfl) hscan]
    rfl
  exact ⟨hread, h.2.1 2 3 e64 hscan hread⟩

theorem compress_roundtrip_witness :
    decompress inflateT (some (compress deflateT [5] CFormat.gzip)) =
      .ok [5] ∧
    decompress inflateT (some (compress deflateT [5] CFormat.deflate)) =
      .ok [5] :=
  compress_roundtrip inflateT deflateT (fun x => rfl) (fun x => ⟨x, rfl⟩)
    (fun x => rfl) (fun x => ⟨156, x, rfl, by tauto⟩) [5] (by decide)
    (by decide)

end Medgfx
